import Mathlib

/-!
# Shallow embedding of MetaTEDL (meta-training and OOD evaluation)

This file embeds, in Lean 4, the parts of the MetaTEDL repository that the
verified claims are about:

* `src/trainer/meta.py` — the meta-training loop of `MetaTrainer.meta_train`:
  loss selection, episode label construction, the per-episode training step,
  the per-epoch checkpoint / training-log state machine, and the arguments
  passed to the evidential loss.
* `src/OodDetection.py` — the OOD evaluation loop: alpha/prob construction,
  the running-statistics aggregator `calculate_avg_std_ci95`, and the
  per-task loop body.

Python floats are modelled exactly: rationals `ℚ` extended, where NaN/Inf
behaviour matters, with explicit `nan` and `inf` constructors whose
arithmetic propagates non-finite values the way IEEE floats do on the
operations the code performs (addition of finite/non-finite values, and
division by the positive integer lengths that occur in the code).
-/

namespace MetaTEDL

/-! ## Float values with NaN/Inf

`FV` models the float values flowing through `np.mean` and the training-loss
accumulation, keeping track of non-finite values.  Only non-negative
divisors occur in the embedded code (list lengths), and the embedded sums
start from `0`, so `add` and `div` are specified on exactly the cases the
code exercises; IEEE semantics are followed there: `nan` absorbs through
both operations, adding `inf` to a finite value gives `inf`, and dividing
`inf` or `nan` by a positive finite value preserves it. -/
inductive FV : Type where
  | fin (q : ℚ) : FV
  | nan : FV
  | inf : FV
deriving DecidableEq, Repr

/-- A float value is finite when it carries a rational. -/
def FV.isFinite : FV → Bool
  | .fin _ => true
  | _ => false

/-- IEEE-style addition on modelled floats: `nan` absorbs, `inf` absorbs
finite values. -/
def FV.add : FV → FV → FV
  | .nan, _ => .nan
  | _, .nan => .nan
  | .inf, _ => .inf
  | _, .inf => .inf
  | .fin a, .fin b => .fin (a + b)

/-- IEEE-style division on modelled floats, for the divisors the code uses
(positive list lengths): `nan` absorbs, `inf` divided by a positive finite
value is `inf`. -/
def FV.div : FV → FV → FV
  | .nan, _ => .nan
  | _, .nan => .nan
  | .inf, .inf => .nan
  | .inf, .fin b => if 0 < b then .inf else .nan
  | .fin _, .inf => .fin 0
  | .fin a, .fin b => if b = 0 then .nan else .fin (a / b)

/-- Sum of a list of modelled floats (as `np.sum` / accumulation do). -/
def FV.sumL (l : List FV) : FV := l.foldr FV.add (FV.fin 0)

/-- Embeds `np.mean(np.array(data))` from `calculate_avg_std_ci95`
(`src/OodDetection.py:28`) on modelled floats: the sum of the entries
divided by the length.  A NaN entry makes the mean NaN, as in NumPy. -/
def npMeanFV (data : List FV) : FV := FV.div (FV.sumL data) (FV.fin data.length)

/-! ## C1: loss selection in `MetaTrainer.__init__` -/

/-- The three configured loss variants of `--loss_type`
(`choices=['mse', 'log', 'digamma']`). -/
inductive LossType : Type where
  | mse : LossType
  | log : LossType
  | digamma : LossType
deriving DecidableEq, Repr

/-- Embeds the loss selection of `MetaTrainer.__init__`
(`src/trainer/meta.py:56`): the line `self.loss = edl_log_loss` assigns the
log-loss unconditionally — `args.loss_type` is never consulted, so the
selected formula is `log` for every configured value. -/
def metaTrainerLoss (_lossType : LossType) : LossType := LossType.log

/-! ## C4: episode label construction -/

/-- Embeds `torch.arange(n)` for 1-D integer tensors: `[0, 1, ..., n-1]`. -/
def torchArange (n : ℕ) : List ℕ := List.range n

/-- Embeds `Tensor.repeat(k)` on a 1-D tensor: the tensor tiled `k` times. -/
def torchRepeat1D (l : List ℕ) (k : ℕ) : List ℕ := (List.replicate k l).flatten

/-- Embeds `label_support = torch.arange(self.args.way).repeat(self.args.shot)`
(`src/trainer/meta.py:114`). -/
def label_support (way shot : ℕ) : List ℕ := torchRepeat1D (torchArange way) shot

/-- Embeds `label_query = torch.arange(self.args.way).repeat(self.args.train_query)`
(`src/trainer/meta.py:118`). -/
def label_query (way query : ℕ) : List ℕ := torchRepeat1D (torchArange way) query

/-- The label order the spec asserts (per-class block order: all labels of
class 0, then all of class 1, ...), stated from the spec's words for
comparison with the code's `label_support`. -/
def blockOrderLabels (way shot : ℕ) : List ℕ :=
  (List.range way).flatMap (fun c => List.replicate shot c)

/-! ## C6: KL annealing coefficient -/

/-- Modelled from the spec: the KL annealing coefficient of the evidential
loss family (`models/EDL_loss.py`, not present under `src/`), "scaled by an
annealing coefficient `min(1, epoch_num / annealing_step)` that ramps
linearly from 0 to 1". -/
def annealingCoef (epoch_num annealing_step : ℕ) : ℚ :=
  min 1 ((epoch_num : ℚ) / (annealing_step : ℚ))

/-- Embeds the annealing-step argument of the loss invocation in
`MetaTrainer.meta_train` (`src/trainer/meta.py:142-143`):
`annealing_step=5 * self.args.max_epoch`. -/
def metaAnnealingStep (max_epoch : ℕ) : ℕ := 5 * max_epoch

/-! ## C7: alpha and prob construction

Both sites construct these identically:
`alpha_q = evidence_q + 1; prob_q = alpha_q / torch.sum(alpha_q, dim=1, keepdim=True)`
(`src/trainer/meta.py:139-140`) and
`alpha = evidence + 1; prob = alpha / torch.sum(alpha, dim=1, keepdim=True)`
(`src/OodDetection.py:115-117`).  A row (one example's per-class values) is a
`List ℚ`. -/

/-- Embeds `alpha = evidence + 1` on one example's evidence row. -/
def alphaOfEvidence (evidence : List ℚ) : List ℚ := evidence.map (fun e => e + 1)

/-- Embeds `prob = alpha / torch.sum(alpha, dim=1, keepdim=True)` on one
example's alpha row: each entry divided by the row sum. -/
def probOfAlpha (alpha : List ℚ) : List ℚ := alpha.map (fun a => a / alpha.sum)

/-! ## C2: AUROC aggregation in the OOD evaluation loop -/

/-- Embeds `auroc_Dents.append(auroc_Dent)` (and the two analogous appends)
in the evaluation loop of `src/OodDetection.py:139-141`: every per-task
AUROC value is appended to the running list unconditionally — there is no
filtering of sentinel (NaN) values. -/
def appendAuroc (aurocs : List FV) (auroc : FV) : List FV := aurocs ++ [auroc]

/-- The aggregation behaviour the spec asserts, stated from the spec's words
for comparison with `npMeanFV`: the running mean computed only over tasks
with defined (finite) AUROC values. -/
def meanDefinedOnly (aurocs : List FV) : FV :=
  npMeanFV (aurocs.filter (fun v => v.isFinite))

/-! ## C3: the per-episode training step of `MetaTrainer.meta_train` -/

/-- Modelled from the spec: `Averager` (`utils/misc.py`, not present under
`src/`), the "mutable accumulator of scalar values; exposes add and current
mean" — its state is the list of added scalars and its current value their
mean. -/
def averagerData (added : List FV) : FV := FV.div (FV.sumL added) (FV.fin added.length)

/-- Embeds the per-episode step of the meta-train loop
(`src/trainer/meta.py:142-157`) as a function of the computed loss value:
the code runs `train_loss_averager.add(loss.item())`, then
`self.optimizer.zero_grad(); loss.backward(); self.optimizer.step()`,
with no finiteness check on `loss` anywhere.  `none` would model a halt
(a raised error before the accumulate/backward); the code never halts, so
the step always returns `some` of the grown accumulator paired with `true`
recording that the loss was backpropagated. -/
def metaEpisodeStep (avgLoss : List FV) (loss : FV) : Option (List FV × Bool) :=
  some (avgLoss ++ [loss], true)

/-! ## C8: the running-statistics aggregator `calculate_avg_std_ci95` -/

/-- Embeds `avg = np.mean(np.array(data))` of `calculate_avg_std_ci95`
(`src/OodDetection.py:28`) on finite data: the sum divided by the length. -/
def calculate_avg (data : List ℚ) : ℚ := data.sum / data.length

/-- The population variance underlying `std = np.std(np.array(data))`
(`src/OodDetection.py:29`): `np.std` divides the sum of squared deviations
by `n` (not `n - 1`) and then takes the square root; this definition is the
quantity under the square root. -/
def calculate_var (data : List ℚ) : ℚ :=
  (data.map (fun x => (x - calculate_avg data) ^ 2)).sum / data.length

/-- `s` is the value `std = np.std(np.array(data))` returns
(`src/OodDetection.py:29`): the unique non-negative real whose square is
the population variance of the data. -/
def calculate_std_is (data : List ℚ) (s : ℝ) : Prop :=
  0 ≤ s ∧ s ^ 2 = (calculate_var data : ℝ)

/-- `c` is the value `ci95 = 1.96 * std / np.sqrt(len(data))` returns
(`src/OodDetection.py:30`). -/
def calculate_ci95_is (data : List ℚ) (c : ℝ) : Prop :=
  ∃ s : ℝ, calculate_std_is data s ∧ c = 1.96 * s / Real.sqrt (data.length : ℝ)

/-! ## C5 and C9: the per-epoch checkpoint and training-log state machine

Embeds the tail of each epoch of `MetaTrainer.meta_train`
(`src/trainer/meta.py:200-219`): best-checkpoint update, periodic
checkpoint, the four per-epoch appends to the log, and `torch.save` of the
log.  Model parameters and the `args` snapshot are abstract types `P`
and `A`; the file system is a map from relative file names to saved
contents. -/

/-- The training-log mapping, with exactly the fields of the dict literal
`trlog = {'args': vars(self.args), 'train_loss': [], 'val_loss': [],
'train_acc': [], 'val_acc': [], 'max_acc': 0.0, 'max_acc_epoch': 0}`
(`src/trainer/meta.py:108-109`). -/
structure TrLogData (A : Type) where
  args : A
  train_loss : List ℚ
  val_loss : List ℚ
  train_acc : List ℚ
  val_acc : List ℚ
  max_acc : ℚ
  max_acc_epoch : ℕ
deriving DecidableEq, Repr

/-- The keys of the `trlog` dict literal (`src/trainer/meta.py:108-109`),
in source order. -/
def trlogKeys : List String :=
  ["args", "train_loss", "val_loss", "train_acc", "val_acc", "max_acc", "max_acc_epoch"]

/-- The initial training log (`src/trainer/meta.py:108-109`): empty
histories, `max_acc = 0.0`, `max_acc_epoch = 0`. -/
def initTrLog {A : Type} (args : A) : TrLogData A :=
  ⟨args, [], [], [], [], 0, 0⟩

/-- A file the trainer persists: either a model checkpoint
(`torch.save(dict(params=...))` in `save_model`) or the training log
(`torch.save(trlog, ...)`). -/
inductive SavedFile (P A : Type) : Type where
  | params (p : P) : SavedFile P A
  | log (t : TrLogData A) : SavedFile P A
deriving DecidableEq, Repr

/-- The file names `meta_train` writes under `save_path`, as a structured
type: `maxAccPth` is `'max_acc.pth'`, `epochPth n` is
`'epoch' + str(n) + '.pth'`, and `trlogFile` is `'trlog'`.  These strings
are pairwise distinct, and `str` is injective on epoch numbers, which the
constructors capture exactly. -/
inductive LogFile : Type where
  | maxAccPth : LogFile
  | epochPth (epoch : ℕ) : LogFile
  | trlogFile : LogFile
deriving DecidableEq, Repr

/-- The modelled file system: file name under `save_path` to saved
content. -/
def FileStore (P A : Type) : Type := LogFile → Option (SavedFile P A)

/-- The per-epoch state of `meta_train`: the in-memory `trlog` plus the
persisted files. -/
structure MetaState (P A : Type) where
  trlog : TrLogData A
  store : FileStore P A

/-- Embeds `save_model` (`src/trainer/meta.py:105-106`):
`torch.save(dict(params=self.model.state_dict()), osp.join(self.args.save_path, name + '.pth'))`
— an overwrite of the named file with the current parameters. -/
def saveModel {P A : Type} (st : FileStore P A) (name : LogFile) (p : P) : FileStore P A :=
  Function.update st name (some (SavedFile.params p))

/-- Embeds the tail of one epoch of `meta_train`
(`src/trainer/meta.py:200-219`), in source order:

1. `if val_acc_averager > trlog['max_acc']:` update `max_acc`,
   `max_acc_epoch`, and `self.save_model('max_acc')`;
2. `if epoch % 20 == 0: self.save_model('epoch' + str(epoch))`;
3. append `train_loss_averager`, `train_acc_averager`,
   `val_loss_averager`, `val_acc_averager` to the four history lists;
4. `torch.save(trlog, osp.join(self.args.save_path, 'trlog'))`. -/
def metaEpochTail {P A : Type} (s : MetaState P A) (epoch : ℕ) (modelParams : P)
    (train_loss_avg train_acc_avg val_loss_avg val_acc_avg : ℚ) : MetaState P A :=
  let t0 := s.trlog
  let best := val_acc_avg > t0.max_acc
  let t1 := if best then
      { t0 with max_acc := val_acc_avg, max_acc_epoch := epoch } else t0
  let st1 := if best then saveModel s.store LogFile.maxAccPth modelParams else s.store
  let st2 := if epoch % 20 = 0 then saveModel st1 (LogFile.epochPth epoch) modelParams else st1
  let t2 := { t1 with
      train_loss := t1.train_loss ++ [train_loss_avg],
      train_acc := t1.train_acc ++ [train_acc_avg],
      val_loss := t1.val_loss ++ [val_loss_avg],
      val_acc := t1.val_acc ++ [val_acc_avg] }
  let st3 := Function.update st2 LogFile.trlogFile (some (SavedFile.log t2))
  ⟨t2, st3⟩

/-- Runs `n` epochs of the `meta_train` checkpoint/log state machine from
the initial log and an arbitrary initial file store, feeding in the
per-epoch averager results `tl ta vl va` and the per-epoch model
parameters `ps` (epochs are numbered from 1, as in
`for epoch in range(1, self.args.max_epoch + 1)`). -/
def runMetaEpochs {P A : Type} (args : A) (st0 : FileStore P A)
    (tl ta vl va : ℕ → ℚ) (ps : ℕ → P) : ℕ → MetaState P A
  | 0 => ⟨initTrLog args, st0⟩
  | n + 1 =>
      metaEpochTail (runMetaEpochs args st0 tl ta vl va ps n) (n + 1) (ps (n + 1))
        (tl (n + 1)) (ta (n + 1)) (vl (n + 1)) (va (n + 1))

/-! ## C10: the OOD evaluation loop body

Embeds one iteration of the evaluation loop of `src/OodDetection.py:110-146`.
A tensor is a list of per-example rows; the trained model's forward pass
(`model.ood_forward`), `torch.log`, the three uncertainty statistics of
`metrics` and `ROC_OOD`, `count_acc`, and `np.sqrt` are parameters of the
loop body, bundled in `OodLoopFns`. -/

/-- A 2-D tensor: one row of per-class rationals per example. -/
def Tensor : Type := List (List ℚ)

/-- The per-task inputs produced by the two `get_task_data` calls
(`src/OodDetection.py:111-112`). -/
structure OodTaskInput : Type where
  data_support : Tensor
  label_support : List ℕ
  data_query : Tensor
  label_query : List ℕ
  ood_data_support : Tensor
  ood_label_support : List ℕ
  ood_data_query : Tensor
  ood_labels_query : List ℕ

/-- The external functions the loop body calls, as abstract parameters. -/
structure OodLoopFns : Type where
  oodForward : Tensor → List ℕ → Tensor → Tensor → Tensor × Tensor
  logF : ℚ → ℚ
  dentF : Tensor → List ℚ
  miF : Tensor → List ℚ
  precF : Tensor → List ℚ
  countAccF : Tensor → List ℕ → ℚ
  rocF : List ℚ → List ℚ → List ℚ → List ℕ → ℚ × ℚ × ℚ
  sqrtF : ℚ → ℚ

/-- The running per-task AUROC lists (`auroc_Dents`, `auroc_MIs`,
`auroc_precisions`, `src/OodDetection.py:105-107`). -/
structure OodLoopState : Type where
  auroc_Dents : List ℚ
  auroc_MIs : List ℚ
  auroc_precisions : List ℚ

/-- Embeds `calculate_avg_std_ci95` (`src/OodDetection.py:27-32`) with the
square root supplied as a parameter: returns
`(np.mean(data), np.std(data), 1.96 * std / np.sqrt(len(data)))`. -/
def calcAvgStdCi95With (sqrtF : ℚ → ℚ) (data : List ℚ) : ℚ × ℚ × ℚ :=
  let avg := calculate_avg data
  let std := sqrtF (calculate_var data)
  (avg, std, 1.96 * std / sqrtF (data.length : ℚ))

/-- Everything one iteration of the evaluation loop computes. -/
structure OodLoopOut : Type where
  evidence : Tensor
  ood_evidence : Tensor
  alpha : Tensor
  prob : Tensor
  acc : ℚ
  diff_ents : List ℚ
  mi : List ℚ
  precs : List ℚ
  labels : List ℕ
  ood_alpha : Tensor
  ood_diff_ents : List ℚ
  ood_mi : List ℚ
  ood_precs : List ℚ
  ood_labels : List ℕ
  auroc_Dent : ℚ
  auroc_MI : ℚ
  auroc_precision : ℚ
  state : OodLoopState
  agg_Dent : ℚ × ℚ × ℚ
  agg_MI : ℚ × ℚ × ℚ
  agg_precision : ℚ × ℚ × ℚ

/-- Embeds one iteration of the evaluation loop
(`src/OodDetection.py:110-146`), line by line:
`evidence, ood_evidence = model.ood_forward(data_support, label_support, data_query, ood_data_query)`;
`alpha = evidence + 1`; `prob = alpha / sum(alpha)`;
`log_alpha = torch.log(alpha)`; `acc = count_acc(prob, label_query)`;
the three uncertainty statistics on `log_alpha`;
`labels = torch.zeros_like(label_query)`; the same for the OOD query with
`ood_labels = torch.ones_like(ood_labels_query)`; concatenation;
`ROC_OOD`; the three unconditional appends; and the three
`calculate_avg_std_ci95` aggregations.  The OOD task's support data and
support labels are produced by `get_task_data` (`src/OodDetection.py:112`)
but never used afterwards. -/
def oodLoopBody (f : OodLoopFns) (st : OodLoopState) (inp : OodTaskInput) : OodLoopOut :=
  let ev := f.oodForward inp.data_support inp.label_support inp.data_query inp.ood_data_query
  let evidence := ev.1
  let ood_evidence := ev.2
  let alpha := evidence.map alphaOfEvidence
  let prob := alpha.map probOfAlpha
  let log_alpha := alpha.map (List.map f.logF)
  let acc := f.countAccF prob inp.label_query
  let diff_ents := f.dentF log_alpha
  let mi := f.miF log_alpha
  let precs := f.precF log_alpha
  let labels := inp.label_query.map (fun _ => 0)
  let ood_alpha := ood_evidence.map alphaOfEvidence
  let ood_log_alpha := ood_alpha.map (List.map f.logF)
  let ood_diff_ents := f.dentF ood_log_alpha
  let ood_mi := f.miF ood_log_alpha
  let ood_precs := f.precF ood_log_alpha
  let ood_labels := inp.ood_labels_query.map (fun _ => 1)
  let all_diff_ents := diff_ents ++ ood_diff_ents
  let all_mis := mi ++ ood_mi
  let all_precs := precs ++ ood_precs
  let all_labels := labels ++ ood_labels
  let roc := f.rocF all_diff_ents all_mis all_precs all_labels
  let st' : OodLoopState :=
    ⟨st.auroc_Dents ++ [roc.1], st.auroc_MIs ++ [roc.2.1], st.auroc_precisions ++ [roc.2.2]⟩
  { evidence := evidence, ood_evidence := ood_evidence, alpha := alpha, prob := prob,
    acc := acc, diff_ents := diff_ents, mi := mi, precs := precs, labels := labels,
    ood_alpha := ood_alpha, ood_diff_ents := ood_diff_ents, ood_mi := ood_mi,
    ood_precs := ood_precs, ood_labels := ood_labels,
    auroc_Dent := roc.1, auroc_MI := roc.2.1, auroc_precision := roc.2.2,
    state := st',
    agg_Dent := calcAvgStdCi95With f.sqrtF st'.auroc_Dents,
    agg_MI := calcAvgStdCi95With f.sqrtF st'.auroc_MIs,
    agg_precision := calcAvgStdCi95With f.sqrtF st'.auroc_precisions }

/-! ## Helper lemmas -/

/-- Length of a tiled 1-D tensor. -/
theorem torchRepeat1D_length (l : List ℕ) (k : ℕ) :
    (torchRepeat1D l k).length = k * l.length := by
  simp [torchRepeat1D]

/-- Tiling one more copy prepends the tensor. -/
theorem torchRepeat1D_succ (l : List ℕ) (k : ℕ) :
    torchRepeat1D l (k + 1) = l ++ torchRepeat1D l k := by
  simp [torchRepeat1D, List.replicate_succ]

/-- Every element of a tiled tensor is an element of the tensor. -/
theorem mem_torchRepeat1D (l : List ℕ) (k : ℕ) (x : ℕ) (hx : x ∈ torchRepeat1D l k) :
    x ∈ l := by
  simp only [torchRepeat1D, List.mem_flatten] at hx
  obtain ⟨s, hs, hxs⟩ := hx
  rw [List.eq_of_mem_replicate hs] at hxs
  exact hxs

/-- The `i`-th entry of `arange(way)` tiled `k` times is `i % way`
(stated with the total `getD` accessor). -/
theorem torchRepeat1D_arange_getD (way k i : ℕ) (h : i < k * way) :
    (torchRepeat1D (torchArange way) k).getD i 0 = i % way := by
  induction k generalizing i with
  | zero => omega
  | succ k ih =>
      rw [torchRepeat1D_succ]
      rcases lt_or_le i way with hlt | hge
      · have hlt' : i < (torchArange way).length := by simpa [torchArange] using hlt
        rw [List.getD_append _ _ _ _ hlt']
        simp [torchArange, List.getD_eq_getElem?_getD, Nat.mod_eq_of_lt hlt, hlt]
      · have hlen : (torchArange way).length = way := by simp [torchArange]
        have hge' : (torchArange way).length ≤ i := by omega
        rw [List.getD_append_right _ _ _ _ hge', hlen]
        have h2 : i - way < k * way := by
          have hexp : (k + 1) * way = k * way + way := by ring
          omega
        rw [ih (i - way) h2]
        conv_rhs => rw [show i = way + (i - way) by omega]
        rw [Nat.add_mod_left]

/-- The `get` form of `torchRepeat1D_arange_getD`. -/
theorem torchRepeat1D_arange_get (way k i : ℕ)
    (h : i < (torchRepeat1D (torchArange way) k).length) :
    (torchRepeat1D (torchArange way) k).get ⟨i, h⟩ = i % way := by
  have hlen : (torchRepeat1D (torchArange way) k).length = k * way := by
    rw [torchRepeat1D_length]; simp [torchArange]
  have := torchRepeat1D_arange_getD way k i (hlen ▸ h)
  rw [List.getD_eq_getElem _ _ h] at this
  rw [List.get_eq_getElem]
  exact this

/-- Sum of a list after dividing every entry by the same value. -/
theorem list_sum_map_div (l : List ℚ) (s : ℚ) :
    (l.map (fun a => a / s)).sum = l.sum / s := by
  induction l with
  | nil => simp
  | cons a t ih => simp [ih, add_div]

/-- Appending a non-finite value makes the modelled float sum non-finite. -/
theorem FV_add_isFinite (a b : FV) (h : (FV.add a b).isFinite = true) :
    a.isFinite = true ∧ b.isFinite = true := by
  cases a <;> cases b <;> simp_all [FV.add, FV.isFinite]

/-- A list containing a non-finite value has a non-finite modelled sum. -/
theorem FV_sumL_not_finite (l : List FV) (x : FV) (hx : x ∈ l)
    (hnf : x.isFinite = false) : (FV.sumL l).isFinite = false := by
  induction l with
  | nil => simp at hx
  | cons a t ih =>
      have hsum : FV.sumL (a :: t) = FV.add a (FV.sumL t) := rfl
      rw [hsum]
      rcases List.mem_cons.mp hx with rfl | hxt
      · cases hfin : (FV.add x (FV.sumL t)).isFinite
        · rfl
        · exact absurd (FV_add_isFinite _ _ hfin).1 (by simp [hnf])
      · cases hfin : (FV.add a (FV.sumL t)).isFinite
        · rfl
        · exact absurd (FV_add_isFinite _ _ hfin).2 (by simp [ih hxt])

/-- Dividing a non-finite modelled float by a positive rational stays
non-finite. -/
theorem FV_div_pos_not_finite (a : FV) (q : ℚ) (ha : a.isFinite = false)
    (hq : 0 < q) : (FV.div a (FV.fin q)).isFinite = false := by
  cases a with
  | fin _ => simp [FV.isFinite] at ha
  | nan => simp [FV.div, FV.isFinite]
  | inf => simp [FV.div, hq, FV.isFinite]

/-- The epoch tail appends exactly one scalar to each of the four history
lists and leaves the `args` snapshot unchanged, in both the improving and
the non-improving branch. -/
theorem metaEpochTail_trlog_fields {P A : Type} (s : MetaState P A) (e : ℕ) (p : P)
    (a b c d : ℚ) :
    (metaEpochTail s e p a b c d).trlog.args = s.trlog.args ∧
    (metaEpochTail s e p a b c d).trlog.train_loss = s.trlog.train_loss ++ [a] ∧
    (metaEpochTail s e p a b c d).trlog.train_acc = s.trlog.train_acc ++ [b] ∧
    (metaEpochTail s e p a b c d).trlog.val_loss = s.trlog.val_loss ++ [c] ∧
    (metaEpochTail s e p a b c d).trlog.val_acc = s.trlog.val_acc ++ [d] := by
  by_cases hb : d > s.trlog.max_acc <;> simp [metaEpochTail, hb]

/-- The epoch tail always ends by overwriting the `trlog` file with the
current training log. -/
theorem metaEpochTail_store_trlog {P A : Type} (s : MetaState P A) (e : ℕ) (p : P)
    (a b c d : ℚ) :
    (metaEpochTail s e p a b c d).store LogFile.trlogFile =
      some (SavedFile.log (metaEpochTail s e p a b c d).trlog) := by
  by_cases hb : d > s.trlog.max_acc <;> by_cases h20 : e % 20 = 0 <;>
    simp [metaEpochTail, hb, h20]

/-- The training log computed by the epoch tail depends only on the
incoming training log, never on the file store. -/
theorem metaEpochTail_trlog_congr {P A : Type} (s s' : MetaState P A) (e : ℕ) (p : P)
    (a b c d : ℚ) (h : s.trlog = s'.trlog) :
    (metaEpochTail s e p a b c d).trlog = (metaEpochTail s' e p a b c d).trlog := by
  simp [metaEpochTail, h]

/-- The training log after `n` epochs is independent of the initial file
store. -/
theorem runMetaEpochs_trlog_indep {P A : Type} (args : A) (st0 st0' : FileStore P A)
    (tl ta vl va : ℕ → ℚ) (ps : ℕ → P) (n : ℕ) :
    (runMetaEpochs args st0 tl ta vl va ps n).trlog =
      (runMetaEpochs args st0' tl ta vl va ps n).trlog := by
  induction n with
  | zero => rfl
  | succ n ih =>
      exact metaEpochTail_trlog_congr _ _ _ _ _ _ _ _ ih

/-! ## Claim theorems -/

/-- **C1, counterexample.**  The claim says the meta-training loss is the
data-fit formula selected by `loss_type`; but with `loss_type = mse` the
loss `MetaTrainer` uses is the log loss, not the mse loss
(`self.loss = edl_log_loss` at `src/trainer/meta.py:56` ignores the
option). -/
theorem C1_counterexample :
    ¬ (metaTrainerLoss LossType.mse = LossType.mse ∧
       metaTrainerLoss LossType.digamma = LossType.digamma) := by
  decide

/-- **C1, amended.**  For every configured `loss_type` in
`{mse, log, digamma}`, the meta-training loss `MetaTrainer` applies to each
episode's query alpha is the log-loss formula `edl_log_loss`: the
`loss_type` option does not change the loss actually used. -/
theorem C1_loss_always_log (lt : LossType) : metaTrainerLoss lt = LossType.log := rfl

/-- **C4, counterexample.**  The claim says episode labels appear in
per-class block order; but with `way = 2, shot = 2` the support labels are
`[0, 1, 0, 1]` (`torch.arange(way).repeat(shot)` tiles the whole range),
not the block order `[0, 0, 1, 1]`. -/
theorem C4_counterexample :
    label_support 2 2 = [0, 1, 0, 1] ∧ blockOrderLabels 2 2 = [0, 0, 1, 1] ∧
      label_support 2 2 ≠ blockOrderLabels 2 2 := by
  decide

/-- **C4, amended.**  For every episode, the support label tensor has
length `way*shot` and the query label tensor has length `way*query`, every
value lies in `[0, way)`, and labels appear in cyclic order — the sequence
`0, 1, ..., way-1` tiled `shot` (resp. `query`) times, so the `i`-th label
is `i % way` — matching the sampler's enumeration order of the data
batch. -/
theorem C4_labels (way shot query : ℕ) :
    (label_support way shot).length = way * shot ∧
    (label_query way query).length = way * query ∧
    (∀ x ∈ label_support way shot, x < way) ∧
    (∀ x ∈ label_query way query, x < way) ∧
    (∀ i : ℕ, ∀ h : i < (label_support way shot).length,
        (label_support way shot).get ⟨i, h⟩ = i % way) ∧
    (∀ i : ℕ, ∀ h : i < (label_query way query).length,
        (label_query way query).get ⟨i, h⟩ = i % way) := by
  refine ⟨?_, ?_, ?_, ?_, ?_, ?_⟩
  · rw [label_support, torchRepeat1D_length]; simp [torchArange, Nat.mul_comm]
  · rw [label_query, torchRepeat1D_length]; simp [torchArange, Nat.mul_comm]
  · intro x hx
    have := mem_torchRepeat1D _ _ _ hx
    simpa [torchArange] using this
  · intro x hx
    have := mem_torchRepeat1D _ _ _ hx
    simpa [torchArange] using this
  · intro i h; exact torchRepeat1D_arange_get way shot i h
  · intro i h; exact torchRepeat1D_arange_get way query i h

/-- **C4, witness** for the amended theorem at `way = 3, shot = 2,
query = 4`. -/
theorem C4_labels_witness :
    (label_support 3 2).length = 3 * 2 ∧ (label_query 3 4).length = 3 * 4 ∧
      (label_support 3 2).get ⟨4, by decide⟩ = 4 % 3 := by
  have h := C4_labels 3 2 4
  exact ⟨h.1, h.2.1, h.2.2.2.2.1 4 (by decide)⟩

/-- **C6.**  The KL annealing coefficient `min(1, epoch_num /
annealing_step)` is, for fixed `annealing_step > 0`, monotonically
non-decreasing in `epoch_num`, bounded above by 1, and equal to exactly 1
for every `epoch_num ≥ annealing_step`; and `MetaTrainer` invokes the loss
with `annealing_step = 5 * max_epoch`
(`src/trainer/meta.py:142-143`). -/
theorem C6_annealing :
    (∀ e1 e2 s : ℕ, 0 < s → e1 ≤ e2 → annealingCoef e1 s ≤ annealingCoef e2 s) ∧
    (∀ e s : ℕ, annealingCoef e s ≤ 1) ∧
    (∀ e s : ℕ, 0 < s → s ≤ e → annealingCoef e s = 1) ∧
    (∀ m : ℕ, metaAnnealingStep m = 5 * m) := by
  refine ⟨?_, ?_, ?_, fun m => rfl⟩
  · intro e1 e2 s hs h12
    have hs' : (0 : ℚ) < (s : ℚ) := by exact_mod_cast hs
    exact min_le_min le_rfl ((div_le_div_iff_of_pos_right hs').mpr (by exact_mod_cast h12))
  · intro e s
    exact min_le_left _ _
  · intro e s hs hse
    have hs' : (0 : ℚ) < (s : ℚ) := by exact_mod_cast hs
    exact min_eq_left ((one_le_div hs').mpr (by exact_mod_cast hse))

/-- **C6, witness** at `annealing_step = 10`. -/
theorem C6_annealing_witness :
    annealingCoef 3 10 ≤ annealingCoef 7 10 ∧ annealingCoef 7 10 ≤ 1 ∧
      annealingCoef 50 10 = 1 ∧ metaAnnealingStep 20 = 100 :=
  ⟨C6_annealing.1 3 7 10 (by decide) (by decide), C6_annealing.2.1 7 10,
    C6_annealing.2.2.1 50 10 (by decide) (by decide), C6_annealing.2.2.2 20⟩

/-- **C7.**  For every evidence row with non-negative entries,
`alpha = evidence + 1` is elementwise `≥ 1`, and
`prob = alpha / sum(alpha)` sums to exactly 1 for a non-empty row — as
constructed identically by the trainer (`src/trainer/meta.py:139-140`) and
the OOD scorer (`src/OodDetection.py:115-117`). -/
theorem C7_alpha_prob (ev : List ℚ) (h : ∀ x ∈ ev, 0 ≤ x) :
    (∀ a ∈ alphaOfEvidence ev, 1 ≤ a) ∧
    (ev ≠ [] → (probOfAlpha (alphaOfEvidence ev)).sum = 1) := by
  have halpha : ∀ a ∈ alphaOfEvidence ev, 1 ≤ a := by
    intro a ha
    simp only [alphaOfEvidence, List.mem_map] at ha
    obtain ⟨x, hx, rfl⟩ := ha
    linarith [h x hx]
  refine ⟨halpha, fun hne => ?_⟩
  have hpos : 0 < (alphaOfEvidence ev).sum := by
    apply List.sum_pos
    · intro a ha; linarith [halpha a ha]
    · simp [alphaOfEvidence, hne]
  rw [probOfAlpha, list_sum_map_div, div_self (ne_of_gt hpos)]

/-- **C7, witness** at the evidence row `[0, 3/2]`. -/
theorem C7_alpha_prob_witness :
    (probOfAlpha (alphaOfEvidence [(0 : ℚ), 3 / 2])).sum = 1 :=
  (C7_alpha_prob [0, 3 / 2] (by norm_num)).2 (by simp)

/-- **C2, counterexample.**  The claim says a NaN AUROC sentinel is
excluded from the running mean aggregation; but the loop appends it
unconditionally and `calculate_avg_std_ci95` averages over the whole list,
so after the tasks `[0.8, NaN]` the running mean is NaN — not the mean
`0.8` over the defined values only. -/
theorem C2_counterexample :
    npMeanFV (appendAuroc [FV.fin (4 / 5)] FV.nan) = FV.nan ∧
    meanDefinedOnly (appendAuroc [FV.fin (4 / 5)] FV.nan) = FV.fin (4 / 5) ∧
    npMeanFV (appendAuroc [FV.fin (4 / 5)] FV.nan) ≠
      meanDefinedOnly (appendAuroc [FV.fin (4 / 5)] FV.nan) := by
  refine ⟨rfl, ?_, ?_⟩
  · norm_num [meanDefinedOnly, npMeanFV, appendAuroc, FV.sumL, FV.add, FV.div, FV.isFinite]
  · norm_num [meanDefinedOnly, npMeanFV, appendAuroc, FV.sumL, FV.add, FV.div, FV.isFinite]
    exact fun h => nomatch h

/-- **C2, amended.**  In the OOD evaluation loop, a sentinel (NaN) AUROC
value is appended to the running list unconditionally and is *included* in
the running mean aggregation: after any task with a non-finite AUROC the
sentinel is a member of the aggregated list and the running mean
`np.mean` over that list is itself non-finite, not a mean over the
defined values only. -/
theorem C2_sentinel_included (aurocs : List FV) (v : FV) (hv : v.isFinite = false) :
    v ∈ appendAuroc aurocs v ∧
    (npMeanFV (appendAuroc aurocs v)).isFinite = false := by
  constructor
  · simp [appendAuroc]
  · have hmem : v ∈ appendAuroc aurocs v := by simp [appendAuroc]
    have hsum := FV_sumL_not_finite (appendAuroc aurocs v) v hmem hv
    have hlen : ((appendAuroc aurocs v).length : ℚ) = (aurocs.length : ℚ) + 1 := by
      simp [appendAuroc]
    rw [npMeanFV, hlen]
    exact FV_div_pos_not_finite _ _ hsum (by positivity)

/-- **C2, witness** for the amended theorem at the running list `[0.8]`
and the sentinel NaN. -/
theorem C2_sentinel_included_witness :
    FV.nan ∈ appendAuroc [FV.fin (4 / 5)] FV.nan ∧
    (npMeanFV (appendAuroc [FV.fin (4 / 5)] FV.nan)).isFinite = false :=
  C2_sentinel_included [FV.fin (4 / 5)] FV.nan rfl

/-- **C3, counterexample.**  The claim says a NaN/Inf loss halts the run
with an `UnstableTrainingError` and is never accumulated or
backpropagated; but at the concrete input (empty averager, loss = NaN) the
per-episode step of `meta_train` continues (`some`, not the halting
`none`), accumulates the NaN into the running average, and backpropagates
it. -/
theorem C3_counterexample :
    metaEpisodeStep [] FV.nan = some ([FV.nan], true) ∧
    metaEpisodeStep [] FV.nan ≠ none := by
  decide

/-- **C3, amended.**  For every training episode in the meta-train loop,
a NaN or Inf loss is silently accumulated into the running loss average
and backpropagated: the step never halts, the non-finite loss becomes a
member of the averager's values, and the averager's current mean becomes
non-finite.  No `UnstableTrainingError` (or any finiteness check) exists
in the loop. -/
theorem C3_nonfinite_loss_accumulated (avgLoss : List FV) (loss : FV)
    (h : loss.isFinite = false) :
    metaEpisodeStep avgLoss loss = some (avgLoss ++ [loss], true) ∧
    loss ∈ avgLoss ++ [loss] ∧
    (averagerData (avgLoss ++ [loss])).isFinite = false := by
  refine ⟨rfl, by simp, ?_⟩
  have hmem : loss ∈ avgLoss ++ [loss] := by simp
  have hsum := FV_sumL_not_finite (avgLoss ++ [loss]) loss hmem h
  have hlen : ((avgLoss ++ [loss]).length : ℚ) = (avgLoss.length : ℚ) + 1 := by simp
  rw [averagerData, hlen]
  exact FV_div_pos_not_finite _ _ hsum (by positivity)

/-- **C3, witness** for the amended theorem at the averager state `[1.0]`
and an infinite loss. -/
theorem C3_nonfinite_loss_accumulated_witness :
    metaEpisodeStep [FV.fin 1] FV.inf = some ([FV.fin 1, FV.inf], true) ∧
    FV.inf ∈ [FV.fin 1] ++ [FV.inf] ∧
    (averagerData ([FV.fin 1] ++ [FV.inf])).isFinite = false :=
  C3_nonfinite_loss_accumulated [FV.fin 1] FV.inf rfl

/-- **C8.**  The running-statistics aggregator `calculate_avg_std_ci95`:
on `[0.8]` it returns mean `0.8`, standard deviation `0`, and ci95 `0`;
on `[0.8, 0.6]` it returns mean `0.7`, standard deviation `0.1`, and
ci95 `1.96*0.1/sqrt 2`; and in general, for every non-empty list, the mean
is the arithmetic mean, the standard deviation is the square root of the
*population* variance (deviations divided by `n`, not `n - 1`), and the
ci95 is `1.96*std/sqrt n`. -/
theorem C8_aggregator :
    (calculate_avg [(4 : ℚ) / 5] = 4 / 5 ∧ calculate_std_is [(4 : ℚ) / 5] 0 ∧
      calculate_ci95_is [(4 : ℚ) / 5] 0) ∧
    (calculate_avg [(4 : ℚ) / 5, 3 / 5] = 7 / 10 ∧
      calculate_std_is [(4 : ℚ) / 5, 3 / 5] (1 / 10) ∧
      calculate_ci95_is [(4 : ℚ) / 5, 3 / 5] (1.96 * (1 / 10) / Real.sqrt 2)) ∧
    (∀ data : List ℚ, data ≠ [] →
      calculate_avg data * (data.length : ℚ) = data.sum ∧
      calculate_var data * (data.length : ℚ) =
        (data.map (fun x => (x - calculate_avg data) ^ 2)).sum ∧
      (∀ s : ℝ, calculate_std_is data s → s = Real.sqrt (calculate_var data : ℝ)) ∧
      (∀ c s : ℝ, calculate_std_is data s →
        calculate_ci95_is data c → c = 1.96 * s / Real.sqrt (data.length : ℝ))) := by
  refine ⟨⟨?_, ⟨le_refl 0, ?_⟩, ?_⟩, ⟨?_, ⟨by norm_num, ?_⟩, ?_⟩, ?_⟩
  · norm_num [calculate_avg]
  · have hv : calculate_var [(4 : ℚ) / 5] = 0 := by
      norm_num [calculate_var, calculate_avg]
    rw [hv]; norm_num
  · refine ⟨0, ⟨le_refl 0, ?_⟩, ?_⟩
    · have hv : calculate_var [(4 : ℚ) / 5] = 0 := by
        norm_num [calculate_var, calculate_avg]
      rw [hv]; norm_num
    · simp
  · norm_num [calculate_avg]
  · have hv : calculate_var [(4 : ℚ) / 5, 3 / 5] = 1 / 100 := by
      norm_num [calculate_var, calculate_avg]
    rw [hv]; norm_num
  · refine ⟨1 / 10, ⟨by norm_num, ?_⟩, ?_⟩
    · have hv : calculate_var [(4 : ℚ) / 5, 3 / 5] = 1 / 100 := by
        norm_num [calculate_var, calculate_avg]
      rw [hv]; norm_num
    · norm_num
  · intro data hne
    have hlen : (0 : ℚ) < (data.length : ℚ) := by
      have : 0 < data.length := List.length_pos.mpr hne
      exact_mod_cast this
    refine ⟨?_, ?_, ?_, ?_⟩
    · rw [calculate_avg, div_mul_cancel₀ _ (ne_of_gt hlen)]
    · rw [calculate_var, div_mul_cancel₀ _ (ne_of_gt hlen)]
    · rintro s ⟨hs0, hsq⟩
      rw [← Real.sqrt_sq hs0, hsq]
    · rintro c s hs ⟨s', hs', hc⟩
      obtain ⟨hs0, hsq⟩ := hs
      obtain ⟨hs0', hsq'⟩ := hs'
      have : s = s' := by
        rw [← Real.sqrt_sq hs0, ← Real.sqrt_sq hs0', hsq, hsq']
      rw [hc, this]

/-- **C8, witness** for the general part of the aggregator theorem at the
list `[1]`. -/
theorem C8_aggregator_witness :
    calculate_avg [(1 : ℚ)] * (([(1 : ℚ)].length : ℕ) : ℚ) = [(1 : ℚ)].sum :=
  ((C8_aggregator.2.2) [1] (by simp)).1

/-- **C5.**  In every epoch of meta-training, the `max_acc` checkpoint is
written and `max_acc`/`max_acc_epoch` updated if and only if that epoch's
validation accuracy strictly exceeds the best recorded so far; on
non-improving epochs the best checkpoint and the recorded best epoch are
unchanged (`src/trainer/meta.py:201-204`). -/
theorem C5_best_checkpoint {P A : Type} (s : MetaState P A) (epoch : ℕ) (p : P)
    (tl ta vl va : ℚ) :
    (va > s.trlog.max_acc →
      (metaEpochTail s epoch p tl ta vl va).trlog.max_acc = va ∧
      (metaEpochTail s epoch p tl ta vl va).trlog.max_acc_epoch = epoch ∧
      (metaEpochTail s epoch p tl ta vl va).store LogFile.maxAccPth =
        some (SavedFile.params p)) ∧
    (¬ va > s.trlog.max_acc →
      (metaEpochTail s epoch p tl ta vl va).trlog.max_acc = s.trlog.max_acc ∧
      (metaEpochTail s epoch p tl ta vl va).trlog.max_acc_epoch = s.trlog.max_acc_epoch ∧
      (metaEpochTail s epoch p tl ta vl va).store LogFile.maxAccPth =
        s.store LogFile.maxAccPth) := by
  constructor <;> intro h <;> by_cases h20 : epoch % 20 = 0 <;>
    simp [metaEpochTail, h, h20, saveModel, Function.update_apply]

/-- **C5, witness** at an improving epoch (`va = 1/2 > 0`) and a
non-improving epoch (`va = 0`, not `> 0`), from the initial log. -/
theorem C5_best_checkpoint_witness :
    ((metaEpochTail (P := ℕ) (A := ℕ) ⟨initTrLog 0, fun _ => none⟩ 1 5 0 0 0 (1 / 2)).trlog.max_acc
        = 1 / 2 ∧
      (metaEpochTail (P := ℕ) (A := ℕ) ⟨initTrLog 0, fun _ => none⟩ 1 5 0 0 0 (1 / 2)).store
        LogFile.maxAccPth = some (SavedFile.params 5)) ∧
    ((metaEpochTail (P := ℕ) (A := ℕ) ⟨initTrLog 0, fun _ => none⟩ 1 5 0 0 0 0).trlog.max_acc
        = 0 ∧
      (metaEpochTail (P := ℕ) (A := ℕ) ⟨initTrLog 0, fun _ => none⟩ 1 5 0 0 0 0).store
        LogFile.maxAccPth = none) := by
  have h1 := (C5_best_checkpoint (P := ℕ) (A := ℕ) ⟨initTrLog 0, fun _ => none⟩ 1 5 0 0 0
    (1 / 2)).1 (by norm_num [initTrLog])
  have h2 := (C5_best_checkpoint (P := ℕ) (A := ℕ) ⟨initTrLog 0, fun _ => none⟩ 1 5 0 0 0
    0).2 (by norm_num [initTrLog])
  exact ⟨⟨h1.1, h1.2.2⟩, ⟨h2.1, h2.2.2⟩⟩

/-- **C9.**  After every meta-training epoch, the training log has exactly
the seven keys of the dict literal, the four loss/accuracy entries hold one
scalar per completed epoch in epoch order, and the log is persisted by
fully overwriting the artifact at the `trlog` path: the persisted content
equals the current in-memory log and is independent of whatever the store
previously held at that path. -/
theorem C9_training_log {P A : Type} (args : A) (tl ta vl va : ℕ → ℚ) (ps : ℕ → P)
    (st0 : FileStore P A) (n : ℕ) :
    trlogKeys.length = 7 ∧ trlogKeys.Nodup ∧
    (runMetaEpochs args st0 tl ta vl va ps n).trlog.args = args ∧
    (runMetaEpochs args st0 tl ta vl va ps n).trlog.train_loss =
      (List.range n).map (fun i => tl (i + 1)) ∧
    (runMetaEpochs args st0 tl ta vl va ps n).trlog.val_loss =
      (List.range n).map (fun i => vl (i + 1)) ∧
    (runMetaEpochs args st0 tl ta vl va ps n).trlog.train_acc =
      (List.range n).map (fun i => ta (i + 1)) ∧
    (runMetaEpochs args st0 tl ta vl va ps n).trlog.val_acc =
      (List.range n).map (fun i => va (i + 1)) ∧
    (0 < n →
      (runMetaEpochs args st0 tl ta vl va ps n).store LogFile.trlogFile =
        some (SavedFile.log (runMetaEpochs args st0 tl ta vl va ps n).trlog)) ∧
    (∀ st0' : FileStore P A, 0 < n →
      (runMetaEpochs args st0 tl ta vl va ps n).store LogFile.trlogFile =
        (runMetaEpochs args st0' tl ta vl va ps n).store LogFile.trlogFile) := by
  refine ⟨rfl, by decide, ?_, ?_, ?_, ?_, ?_, ?_, ?_⟩
  · induction n with
    | zero => rfl
    | succ n ih =>
        have h := metaEpochTail_trlog_fields (runMetaEpochs args st0 tl ta vl va ps n)
          (n + 1) (ps (n + 1)) (tl (n + 1)) (ta (n + 1)) (vl (n + 1)) (va (n + 1))
        exact h.1.trans ih
  · induction n with
    | zero => rfl
    | succ n ih =>
        have h := metaEpochTail_trlog_fields (runMetaEpochs args st0 tl ta vl va ps n)
          (n + 1) (ps (n + 1)) (tl (n + 1)) (ta (n + 1)) (vl (n + 1)) (va (n + 1))
        rw [runMetaEpochs, h.2.1, ih, List.range_succ, List.map_append, List.map_singleton]
  · induction n with
    | zero => rfl
    | succ n ih =>
        have h := metaEpochTail_trlog_fields (runMetaEpochs args st0 tl ta vl va ps n)
          (n + 1) (ps (n + 1)) (tl (n + 1)) (ta (n + 1)) (vl (n + 1)) (va (n + 1))
        rw [runMetaEpochs, h.2.2.2.1, ih, List.range_succ, List.map_append, List.map_singleton]
  · induction n with
    | zero => rfl
    | succ n ih =>
        have h := metaEpochTail_trlog_fields (runMetaEpochs args st0 tl ta vl va ps n)
          (n + 1) (ps (n + 1)) (tl (n + 1)) (ta (n + 1)) (vl (n + 1)) (va (n + 1))
        rw [runMetaEpochs, h.2.2.1, ih, List.range_succ, List.map_append, List.map_singleton]
  · induction n with
    | zero => rfl
    | succ n ih =>
        have h := metaEpochTail_trlog_fields (runMetaEpochs args st0 tl ta vl va ps n)
          (n + 1) (ps (n + 1)) (tl (n + 1)) (ta (n + 1)) (vl (n + 1)) (va (n + 1))
        rw [runMetaEpochs, h.2.2.2.2, ih, List.range_succ, List.map_append, List.map_singleton]
  · intro hn
    cases n with
    | zero => omega
    | succ n => exact metaEpochTail_store_trlog _ _ _ _ _ _ _
  · intro st0' hn
    cases n with
    | zero => omega
    | succ n =>
        rw [runMetaEpochs, runMetaEpochs, metaEpochTail_store_trlog,
          metaEpochTail_store_trlog]
        rw [metaEpochTail_trlog_congr _ _ _ _ _ _ _ _
          (runMetaEpochs_trlog_indep args st0 st0' tl ta vl va ps n)]

/-- **C9, witness** after two epochs with concrete per-epoch statistics
and an empty initial store. -/
theorem C9_training_log_witness :
    (runMetaEpochs (P := ℕ) (A := ℕ) 0 (fun _ => none) (fun i => (i : ℚ))
        (fun i => (i : ℚ)) (fun i => (i : ℚ)) (fun i => (i : ℚ)) (fun i => i) 2).trlog.train_loss
      = [(1 : ℚ), 2] ∧
    (runMetaEpochs (P := ℕ) (A := ℕ) 0 (fun _ => none) (fun i => (i : ℚ))
        (fun i => (i : ℚ)) (fun i => (i : ℚ)) (fun i => (i : ℚ)) (fun i => i) 2).store
        LogFile.trlogFile
      = some (SavedFile.log
          (runMetaEpochs (P := ℕ) (A := ℕ) 0 (fun _ => none) (fun i => (i : ℚ))
            (fun i => (i : ℚ)) (fun i => (i : ℚ)) (fun i => (i : ℚ)) (fun i => i) 2).trlog) := by
  have h := C9_training_log (P := ℕ) (A := ℕ) 0 (fun i => (i : ℚ)) (fun i => (i : ℚ))
    (fun i => (i : ℚ)) (fun i => (i : ℚ)) (fun i => i) (fun _ => none) 2
  refine ⟨?_, h.2.2.2.2.2.2.2.1 (by norm_num)⟩
  rw [h.2.2.2.1]
  rfl

/-- **C10.**  In the OOD evaluation loop, every per-task output — the two
evidence tensors, alpha/prob, the accuracy, all three uncertainty
statistics for both query sets, the per-task AUROC values, the updated
running lists, and the running mean/std/ci95 aggregates — is invariant
under any change to the OOD task's support data and support labels: two
runs differing only in `ood_data_support` and `ood_label_support` produce
identical outputs, since the loop body never uses the OOD support
(`src/OodDetection.py:110-146`). -/
theorem C10_ood_support_noninterference (f : OodLoopFns) (st : OodLoopState)
    (i1 i2 : OodTaskInput)
    (h1 : i1.data_support = i2.data_support)
    (h2 : i1.label_support = i2.label_support)
    (h3 : i1.data_query = i2.data_query)
    (h4 : i1.label_query = i2.label_query)
    (h5 : i1.ood_data_query = i2.ood_data_query)
    (h6 : i1.ood_labels_query = i2.ood_labels_query) :
    oodLoopBody f st i1 = oodLoopBody f st i2 := by
  cases i1
  cases i2
  dsimp only at h1 h2 h3 h4 h5 h6
  subst h1 h2 h3 h4 h5 h6
  rfl

/-- **C10, witness**: two concrete tasks differing only in the OOD
support data and OOD support labels yield identical loop outputs. -/
theorem C10_ood_support_noninterference_witness :
    oodLoopBody
      ⟨fun _ _ _ _ => ([[1]], [[2]]), id, fun t => t.flatten, fun t => t.flatten,
        fun t => t.flatten, fun _ _ => 0, fun a _ _ _ => (a.sum, 0, 0), id⟩
      ⟨[], [], []⟩
      ⟨[[1]], [0], [[2]], [0], [[3]], [1], [[4]], [1]⟩ =
    oodLoopBody
      ⟨fun _ _ _ _ => ([[1]], [[2]]), id, fun t => t.flatten, fun t => t.flatten,
        fun t => t.flatten, fun _ _ => 0, fun a _ _ _ => (a.sum, 0, 0), id⟩
      ⟨[], [], []⟩
      ⟨[[1]], [0], [[2]], [0], [[99]], [7], [[4]], [1]⟩ :=
  C10_ood_support_noninterference _ _ _ _ rfl rfl rfl rfl rfl rfl

end MetaTEDL
